import Mathlib

/-!
Verification of the chibivue reactive-runtime specification against the
repository source.

Part 1 — Reactive wrapper layer (reactive.ts snippets of the proxy-handler
chapter): `targetTypeMap`, `getTargetType`, `reactive`, `ReactiveFlags.RAW`,
`toRaw`.

We embed JavaScript values shallowly: a raw value carries an identity tag,
its `Object.prototype.toString`-derived raw type string, its extensibility
bit, and its own properties; a Proxy wraps a target value with a handler
kind.  Structural equality of `Value` models JavaScript identity equality
(`===`): `new Proxy(t, h)` always yields a fresh identity, which the
embedding reflects by `Value.proxy h t` being structurally distinct from
`t`.
-/

/-- Handler sets used to construct reactive proxies.  The source chapter
constructs proxies with `mutableHandlers`; the collection-handler set is the
chapter's stated goal for map/set-like targets. -/
inductive HandlerKind where
  | mutable
  | collection
deriving DecidableEq

/-- A JavaScript value: either a raw (non-proxy) value with an identity id,
an `Object.prototype.toString`-derived raw type tag, an extensibility bit
and own properties, or a Proxy over a target value. -/
inductive Value where
  | mkRaw (id : Nat) (rawType : String) (extensible : Bool)
      (fields : List (String × Value))
  | proxy (handler : HandlerKind) (target : Value)

/-- Whether a value is a Proxy. -/
def Value.isProxy : Value → Bool
  | .proxy _ _ => true
  | .mkRaw _ _ _ _ => false

/-- `toRawType` from shared/general.ts: the `hoge` of the
`Object.prototype.toString` result `[object hoge]`.
`Object.prototype.toString` pierces proxies (the builtin tag and
`Symbol.toStringTag` are resolved through the target), so a proxy reports
its target's raw type. -/
def toRawType : Value → String
  | .mkRaw _ rawType _ _ => rawType
  | .proxy _ target => toRawType target

/-- `Object.isExtensible`, which forwards through proxies without a
`preventExtensions` trap. -/
def isExtensible : Value → Bool
  | .mkRaw _ _ extensible _ => extensible
  | .proxy _ target => isExtensible target

/-- `TargetType` from reactive.ts: `INVALID = 0`, `COMMON = 1`. -/
inductive TargetType where
  | INVALID
  | COMMON
deriving DecidableEq

/-- `targetTypeMap` from reactive.ts: only the raw types `Object` and
`Array` are `COMMON`; every other raw type is `INVALID`. -/
def targetTypeMap (rawType : String) : TargetType :=
  match rawType with
  | "Object" => TargetType.COMMON
  | "Array" => TargetType.COMMON
  | _ => TargetType.INVALID

/-- `getTargetType` from reactive.ts: a non-extensible value is `INVALID`;
otherwise the type is decided by `targetTypeMap` on the raw type tag. -/
def getTargetType (value : Value) : TargetType :=
  if !(isExtensible value) then TargetType.INVALID
  else targetTypeMap (toRawType value)

/-- `reactive` from reactive.ts: return the target unchanged when its
target type is `INVALID`, otherwise construct a new Proxy over it with
`mutableHandlers`. -/
def reactive (target : Value) : Value :=
  if getTargetType target = TargetType.INVALID then target
  else Value.proxy HandlerKind.mutable target

/-- `ReactiveFlags.RAW`, the reserved raw-unwrap key. -/
def ReactiveFlagsRAW : String := "__v_raw"

/-- Reading `ReactiveFlags.RAW` on a value: on a proxy the get trap returns
the construction target; a raw value has no such own property, so the read
yields `undefined` (`none`). -/
def readRawFlag : Value → Option Value
  | .proxy _ target => some target
  | .mkRaw _ _ _ _ => none

/-- `toRaw` from reactive.ts:
`const raw = observed && observed[ReactiveFlags.RAW]; return raw ? toRaw(raw) : observed`.
Reading `ReactiveFlags.RAW` yields the construction target on a proxy
(`readRawFlag`), on which `toRaw` recurses; on any raw value (including a
falsy `observed`, which short-circuits the `&&`) the flag read is falsy and
`observed` itself is returned. -/
def toRaw : Value → Value
  | .proxy _ target => toRaw target
  | .mkRaw id rawType extensible fields => .mkRaw id rawType extensible fields

/-- The recursion of `toRaw` agrees with the `ReactiveFlags.RAW` read that
the source performs: it recurses exactly when the flag read is truthy, on
the value that read returns. -/
theorem toRaw_eq_rawFlag_rec (observed : Value) :
    toRaw observed =
      match readRawFlag observed with
      | some raw => toRaw raw
      | none => observed := by
  cases observed <;> rfl

/-- Own-property lookup in a property list (first binding wins). -/
def lookupField : List (String × Value) → String → Option Value
  | [], _ => none
  | (k, v) :: rest, key => if k = key then some v else lookupField rest key

/-- `Reflect.get` on a value: a raw value looks up its own properties; a
proxy without a relevant trap forwards to its target. -/
def readField : Value → String → Option Value
  | .mkRaw _ _ _ fields, key => lookupField fields key
  | .proxy _ target, key => readField target key

/-- Modelled from the spec: the mutable proxy `get` trap of reactive.ts.
The sampled source declares `ReactiveFlags.RAW` and the `Target` interface
and describes the trap, but its code is not included; following the spec:
(1) if the key requests raw unwrap, return the underlying raw value without
recording a dependency; (2) otherwise record a dependency on (this wrapper,
key); (3) if the read value is itself a plain aggregate, recursively wrap
it before returning (`reactive` already passes non-aggregates through, so
it is applied to any read result).  The second component is the list of
`track` calls performed during the read. -/
def mutableGet (target : Value) (key : String) :
    Option Value × List (Value × String) :=
  if key = ReactiveFlagsRAW then (some target, [])
  else ((readField target key).map reactive, [(target, key)])

/-- A property read through a reactive proxy dispatches the `get` trap on
the proxy construction target; a read on a non-proxy value is a direct
property access with no interception and no tracking. -/
def proxyRead : Value → String → Option Value × List (Value × String)
  | .proxy _ target, key => mutableGet target key
  | .mkRaw id rawType extensible fields, key =>
      (readField (.mkRaw id rawType extensible fields) key, [])

/-- A proxy is never structurally identical to its own target: wrapping
always produces a fresh identity. -/
theorem proxy_ne_self (hk : HandlerKind) (v : Value) :
    Value.proxy hk v ≠ v := by
  intro h
  have hs : sizeOf (Value.proxy hk v) = sizeOf v := congrArg sizeOf h
  simp at hs

/-- A non-proxy value carries no raw marker, so `toRaw` leaves it fixed. -/
theorem toRaw_of_not_isProxy (v : Value) (h : v.isProxy = false) :
    toRaw v = v := by
  cases v with
  | mkRaw id rawType extensible fields => rfl
  | proxy handler target => simp [Value.isProxy] at h

/-- The result of `toRaw` never carries a raw marker. -/
theorem toRaw_not_isProxy : ∀ v : Value, (toRaw v).isProxy = false
  | .mkRaw _ _ _ _ => rfl
  | .proxy _ target => toRaw_not_isProxy target

/-- A proxy pierces to its target for the raw type tag and extensibility,
so `reactive` classifies a wrapper exactly as it classifies the target. -/
theorem getTargetType_proxy (hk : HandlerKind) (t : Value) :
    getTargetType (Value.proxy hk t) = getTargetType t := by
  simp [getTargetType, isExtensible, toRawType]

/-- C1: for every input value, `reactive` returns the value itself,
unchanged and unwrapped, whenever its `Object.prototype.toString`-derived
raw type tag is not one of the plain-aggregate tags accepted by
`targetTypeMap` — the pass-through decision is made on the type tag alone
(plus extensibility), never on the value's shape. -/
theorem reactive_passthrough_of_invalid_tag (raw : Value)
    (h : targetTypeMap (toRawType raw) = TargetType.INVALID) :
    reactive raw = raw := by
  unfold reactive getTargetType
  cases hext : isExtensible raw <;> simp [hext, h]

/-- C1 witness: a host-tree node (raw type `HTMLInputElement`) is never
wrapped: `reactive` returns it unchanged. -/
theorem reactive_passthrough_of_invalid_tag_witness :
    targetTypeMap (toRawType (Value.mkRaw 7 "HTMLInputElement" true [])) =
        TargetType.INVALID ∧
    reactive (Value.mkRaw 7 "HTMLInputElement" true []) =
        Value.mkRaw 7 "HTMLInputElement" true [] :=
  ⟨by decide, reactive_passthrough_of_invalid_tag _ (by decide)⟩

/-- C2 counterexample: wrapping is not idempotent in this code.  For the
concrete plain object `mkRaw 0 "Object" true []`, `reactive (reactive x)`
builds a second proxy around the first instead of returning the existing
wrapper, so it is not identity-equal to `reactive x`: there is no
raw-to-wrapper cache in the sampled `reactive`. -/
theorem reactive_rewrap_not_idempotent :
    reactive (reactive (Value.mkRaw 0 "Object" true [])) ≠
      reactive (Value.mkRaw 0 "Object" true []) := by
  show Value.proxy HandlerKind.mutable
        (Value.proxy HandlerKind.mutable (Value.mkRaw 0 "Object" true [])) ≠
      Value.proxy HandlerKind.mutable (Value.mkRaw 0 "Object" true [])
  intro h
  injection h with h1 h2
  exact proxy_ne_self HandlerKind.mutable _ h2

/-- C2 amended: the sampled `reactive` keeps no raw-to-wrapper cache, so
re-wrapping an already-wrapped plain aggregate constructs a fresh wrapper
around the existing one (`reactive (reactive x)` is a new proxy, not
identity-equal to `reactive x`); the two are nevertheless identified by
unwrapping: `toRaw` collapses the double wrapper back to the raw `x`. -/
theorem reactive_rewrap_fresh_wrapper (x : Value)
    (hraw : x.isProxy = false)
    (hcommon : getTargetType x = TargetType.COMMON) :
    reactive (reactive x) =
        Value.proxy HandlerKind.mutable (reactive x) ∧
    reactive (reactive x) ≠ reactive x ∧
    toRaw (reactive (reactive x)) = x := by
  have hx : reactive x = Value.proxy HandlerKind.mutable x := by
    unfold reactive
    simp [hcommon]
  have hxx : reactive (reactive x) =
      Value.proxy HandlerKind.mutable (reactive x) := by
    rw [hx]
    unfold reactive
    rw [getTargetType_proxy, hcommon]
    simp
  refine ⟨hxx, ?_, ?_⟩
  · rw [hxx]
    intro h
    exact proxy_ne_self HandlerKind.mutable (reactive x) h
  · rw [hxx, hx]
    show toRaw x = x
    exact toRaw_of_not_isProxy x hraw

/-- C2 amended witness: for the concrete plain object
`mkRaw 0 "Object" true []`, re-wrapping yields a fresh wrapper that
`toRaw` collapses back to the raw object. -/
theorem reactive_rewrap_fresh_wrapper_witness :
    reactive (reactive (Value.mkRaw 0 "Object" true [])) =
        Value.proxy HandlerKind.mutable
          (reactive (Value.mkRaw 0 "Object" true [])) ∧
    reactive (reactive (Value.mkRaw 0 "Object" true [])) ≠
        reactive (Value.mkRaw 0 "Object" true []) ∧
    toRaw (reactive (reactive (Value.mkRaw 0 "Object" true []))) =
        Value.mkRaw 0 "Object" true [] :=
  reactive_rewrap_fresh_wrapper (Value.mkRaw 0 "Object" true [])
    (by decide) (by decide)

/-- C3: `toRaw` follows the raw back-marker through any chain of nested
wrappers — on a wrapper it recurses on the wrapper's target, its result
never carries a raw marker, and for every non-proxy value `x` (in
particular every plain aggregate) `toRaw (reactive x) = x`
identity-equal. -/
theorem toRaw_reaches_truly_raw :
    (∀ (hk : HandlerKind) (t : Value),
        toRaw (Value.proxy hk t) = toRaw t) ∧
    (∀ v : Value, (toRaw v).isProxy = false) ∧
    (∀ x : Value, x.isProxy = false → toRaw (reactive x) = x) := by
  refine ⟨fun hk t => rfl, toRaw_not_isProxy, fun x hx => ?_⟩
  unfold reactive
  cases hinv : decide (getTargetType x = TargetType.INVALID) with
  | true => simp_all [toRaw_of_not_isProxy x hx]
  | false =>
      simp only [decide_eq_false_iff_not] at hinv
      simp [hinv]
      show toRaw x = x
      exact toRaw_of_not_isProxy x hx

/-- C3 witness: unwrapping a double-wrapped concrete plain object returns
the raw object itself. -/
theorem toRaw_reaches_truly_raw_witness :
    toRaw (reactive (Value.mkRaw 3 "Object" true [])) =
        Value.mkRaw 3 "Object" true [] ∧
    (toRaw (Value.proxy HandlerKind.mutable
        (Value.proxy HandlerKind.mutable
          (Value.mkRaw 3 "Object" true [])))).isProxy = false :=
  ⟨toRaw_reaches_truly_raw.2.2 (Value.mkRaw 3 "Object" true []) (by decide),
   toRaw_reaches_truly_raw.2.1 _⟩

/-- C7: a property read through a wrapper whose key is the reserved
raw-unwrap key `ReactiveFlags.RAW` returns the underlying raw value (the
proxy construction target) and performs no `track` call at all. -/
theorem proxyRead_raw_key_no_track (hk : HandlerKind) (target : Value) :
    proxyRead (Value.proxy hk target) ReactiveFlagsRAW =
      (some target, []) := by
  simp [proxyRead, mutableGet]

/-!
Part 2 — Component public instance proxy
(runtime-core/componentPublicInstance.ts), and the runtime-dom application
mount entry point (runtime-dom/index.ts).

A JavaScript record owned by the instance is embedded as an association
list over an arbitrary value type; `hasOwn` is own-key membership.
-/

/-- `hasOwn` from shared: whether a record owns the key. -/
def hasOwn {α : Type} (state : List (String × α)) (key : String) : Bool :=
  state.any (fun p => p.1 = key)

/-- Reading `state[key]` on a record: the bound value, or `undefined`
(`none`) when the key is absent. -/
def lookupProp {α : Type} : List (String × α) → String → Option α
  | [], _ => none
  | (k, v) :: rest, key => if k = key then some v else lookupProp rest key

/-- JavaScript property assignment `state[key] = value`: overwrite the
binding when the key is owned, create it otherwise. -/
def setProp {α : Type} : List (String × α) → String → α → List (String × α)
  | [], key, value => [(key, value)]
  | (k, v) :: rest, key, value =>
      if k = key then (k, value) :: rest else (k, v) :: setProp rest key value

/-- `hasSetupBinding` from componentPublicInstance.ts:
`(state, key) => hasOwn(state, key)`. -/
def hasSetupBinding {α : Type} (state : List (String × α)) (key : String) :
    Bool :=
  hasOwn state key

/-- The fields of `ComponentInternalInstance` that
`PublicInstanceProxyHandlers` consults: `setupState`, `data`, `props`, and
the normalized `propsOptions` (the declared prop keys). -/
structure ComponentInst (α : Type) where
  setupState : List (String × α)
  data : List (String × α)
  props : List (String × α)
  propsOptions : List String

/-- `PublicInstanceProxyHandlers.get`: return `setupState[key]` when the
setup state owns the key; otherwise `props[key]` when the key is declared
in `propsOptions`; otherwise `data[key]` when the data record owns it;
otherwise fall through returning `undefined`. -/
def publicGet {α : Type} (inst : ComponentInst α) (key : String) :
    Option α :=
  if hasSetupBinding inst.setupState key then
    lookupProp inst.setupState key
  else if inst.propsOptions.contains key then
    lookupProp inst.props key
  else if hasOwn inst.data key then
    lookupProp inst.data key
  else
    none

/-- `PublicInstanceProxyHandlers.set`: assign to `setupState[key]` when the
setup state owns the key, else to `data[key]` when the data record owns it,
else change nothing; in every case report success by returning `true`. -/
def publicSet {α : Type} (inst : ComponentInst α) (key : String)
    (value : α) : ComponentInst α × Bool :=
  if hasSetupBinding inst.setupState key then
    ({ inst with setupState := setProp inst.setupState key value }, true)
  else if hasOwn inst.data key then
    ({ inst with data := setProp inst.data key value }, true)
  else
    (inst, true)


/-- C8: the public-instance proxy read resolves `key` in the order
setup state, then declared props, then data: it returns
`setupState[key]` whenever the setup state owns the key (shadowing a
same-named prop or data entry), otherwise `props[key]` whenever the key is
declared in `propsOptions` (shadowing same-named data), otherwise
`data[key]` whenever the data record owns the key, and `undefined`
otherwise. -/
theorem publicGet_shadowing_order {α : Type} (inst : ComponentInst α)
    (key : String) :
    (hasOwn inst.setupState key = true →
        publicGet inst key = lookupProp inst.setupState key) ∧
    (hasOwn inst.setupState key = false →
      inst.propsOptions.contains key = true →
        publicGet inst key = lookupProp inst.props key) ∧
    (hasOwn inst.setupState key = false →
      inst.propsOptions.contains key = false →
      hasOwn inst.data key = true →
        publicGet inst key = lookupProp inst.data key) ∧
    (hasOwn inst.setupState key = false →
      inst.propsOptions.contains key = false →
      hasOwn inst.data key = false →
        publicGet inst key = none) := by
  refine ⟨fun h1 => ?_, fun h1 h2 => ?_, fun h1 h2 h3 => ?_,
    fun h1 h2 h3 => ?_⟩ <;>
    simp [publicGet, hasSetupBinding, h1] <;> simp_all

/-- C8 witness: on a concrete instance where `a` is a setup binding,
`b` is both a declared prop and a data key, `d` is only a data key, and
`z` is nowhere, the proxy read returns the setup value, the prop value,
the data value, and `undefined` respectively. -/
theorem publicGet_shadowing_order_witness :
    publicGet
        (ComponentInst.mk [("a", 1)] [("b", 9), ("d", 7)] [("b", 4)] ["b"])
        "a" = some 1 ∧
    publicGet
        (ComponentInst.mk [("a", 1)] [("b", 9), ("d", 7)] [("b", 4)] ["b"])
        "b" = some 4 ∧
    publicGet
        (ComponentInst.mk [("a", 1)] [("b", 9), ("d", 7)] [("b", 4)] ["b"])
        "d" = some 7 ∧
    publicGet
        (ComponentInst.mk [("a", 1)] [("b", 9), ("d", 7)] [("b", 4)] ["b"])
        "z" = none := by
  refine ⟨?_, ?_, ?_, ?_⟩
  · exact ((publicGet_shadowing_order _ "a").1 (by decide)).trans (by decide)
  · exact ((publicGet_shadowing_order _ "b").2.1 (by decide)
      (by decide)).trans (by decide)
  · exact ((publicGet_shadowing_order _ "d").2.2.1 (by decide) (by decide)
      (by decide)).trans (by decide)
  · exact (publicGet_shadowing_order _ "z").2.2.2 (by decide) (by decide)
      (by decide)

/-- C9: the public-instance proxy write always reports success: it
assigns to `setupState[key]` when the setup state owns the key, otherwise
to `data[key]` when the data record owns the key, and when neither owns
the key it leaves the instance (setup state, data, and props) completely
unchanged while still returning `true` — the write is silently discarded
without an exception. -/
theorem publicSet_silent_success {α : Type} (inst : ComponentInst α)
    (key : String) (value : α) :
    ((publicSet inst key value).2 = true) ∧
    (hasOwn inst.setupState key = true →
        publicSet inst key value =
          ({ inst with setupState := setProp inst.setupState key value },
            true)) ∧
    (hasOwn inst.setupState key = false →
      hasOwn inst.data key = true →
        publicSet inst key value =
          ({ inst with data := setProp inst.data key value }, true)) ∧
    (hasOwn inst.setupState key = false →
      hasOwn inst.data key = false →
        publicSet inst key value = (inst, true)) := by
  refine ⟨?_, fun h1 => ?_, fun h1 h2 => ?_, fun h1 h2 => ?_⟩
  · unfold publicSet
    split
    · rfl
    · split <;> rfl
  · simp [publicSet, hasSetupBinding, h1]
  · simp [publicSet, hasSetupBinding, h1, h2]
  · simp [publicSet, hasSetupBinding, h1, h2]

/-- C9 witness: on a concrete instance, writing a setup key updates the
setup state, writing a data key updates data, and writing an unknown key
leaves the instance unchanged; every write reports `true`. -/
theorem publicSet_silent_success_witness :
    publicSet (ComponentInst.mk [("a", 1)] [("d", 7)] [("p", 4)] ["p"])
        "a" 5 =
      (ComponentInst.mk [("a", 5)] [("d", 7)] [("p", 4)] ["p"], true) ∧
    publicSet (ComponentInst.mk [("a", 1)] [("d", 7)] [("p", 4)] ["p"])
        "d" 6 =
      (ComponentInst.mk [("a", 1)] [("d", 6)] [("p", 4)] ["p"], true) ∧
    publicSet (ComponentInst.mk [("a", 1)] [("d", 7)] [("p", 4)] ["p"])
        "z" 8 =
      (ComponentInst.mk [("a", 1)] [("d", 7)] [("p", 4)] ["p"], true) := by
  refine ⟨?_, ?_, ?_⟩
  · exact ((publicSet_silent_success _ "a" 5).2.1 (by decide)).trans rfl
  · exact ((publicSet_silent_success _ "d" 6).2.2.1 (by decide)
      (by decide)).trans rfl
  · exact (publicSet_silent_success _ "z" 8).2.2.2 (by decide) (by decide)

/-!
Part 3 — runtime-dom application mount entry point:
`createApp`'s overridden `app.mount` and `normalizeContainer`.

A host element is embedded as a natural-number identity, the document as
the partial function that `document.querySelector` implements (`none`
models a `null` result), and the argument of `app.mount` as a string
selector or an element.  `appMount` returns the list of containers the
renderer-level `mount` captured by `createApp` was invoked on, which makes
call counts observable; the JavaScript function returns `undefined` on
every path, and every model path is total, so no exception is raised. -/

/-- The argument of `app.mount`: an `Element` or a selector string. -/
inductive ContainerArg where
  | selectorStr (s : String)
  | element (e : Nat)

/-- `normalizeContainer` from runtime-dom/index.ts: a string argument is
resolved through `document.querySelector` (possibly `null`); an element is
returned as is. -/
def normalizeContainer (querySelector : String → Option Nat) :
    ContainerArg → Option Nat
  | .selectorStr s => querySelector s
  | .element e => some e

/-- The overridden `app.mount` from `createApp`: normalize the argument;
if no container was found (`!container`), return immediately without
calling the captured renderer `mount`; otherwise call it once on the
container.  The result lists the renderer-mount invocations in order. -/
def appMount (querySelector : String → Option Nat)
    (containerOrSelector : ContainerArg) : List Nat :=
  match normalizeContainer querySelector containerOrSelector with
  | none => []
  | some container => [container]

/-- C10: mounting with an unresolvable selector is a silent no-op — the
renderer-level mount is never invoked (and the model returns on a total
path, so no exception is raised); mounting with an element, or with a
selector the document resolves, invokes the renderer-level mount exactly
once, on that container. -/
theorem appMount_unresolvable_noop (querySelector : String → Option Nat) :
    (∀ s : String, querySelector s = none →
        appMount querySelector (ContainerArg.selectorStr s) = []) ∧
    (∀ (s : String) (el : Nat), querySelector s = some el →
        appMount querySelector (ContainerArg.selectorStr s) = [el]) ∧
    (∀ e : Nat, appMount querySelector (ContainerArg.element e) = [e]) := by
  refine ⟨fun s h => ?_, fun s el h => ?_, fun e => rfl⟩ <;>
    simp [appMount, normalizeContainer, h]

/-- C10 witness: against a document resolving only `#app` to element 42,
mounting with selector `#missing` performs no renderer mount, and
mounting with `#app` or with element 42 performs exactly one. -/
theorem appMount_unresolvable_noop_witness :
    appMount (fun s => if s = "#app" then some 42 else none)
        (ContainerArg.selectorStr "#missing") = [] ∧
    appMount (fun s => if s = "#app" then some 42 else none)
        (ContainerArg.selectorStr "#app") = [42] ∧
    appMount (fun s => if s = "#app" then some 42 else none)
        (ContainerArg.element 42) = [42] :=
  ⟨(appMount_unresolvable_noop _).1 "#missing" (by decide),
   (appMount_unresolvable_noop _).2.1 "#app" 42 (by decide),
   (appMount_unresolvable_noop _).2.2 42⟩

/-!
Part 4 — Collection handlers.

The sampled chapter sets map/set-like support as its goal (an extended
`targetTypeMap` and a distinct `collectionHandlers` proxy handler set whose
methods operate on the raw data), but the implementing code is not part of
the sample, so this part is modelled from the spec.
-/

/-- The entry list of a (possibly wrapped) collection: a proxy forwards to
its target. -/
def entriesOf : Value → List (String × Value)
  | .mkRaw _ _ _ fields => fields
  | .proxy _ target => entriesOf target

/-- Modelled from the spec: the reserved sentinel dependency key standing
for iterate/size dependencies of a collection, distinct from any element
key. -/
def ITERATE_KEY : String := "__iterate__"

/-- Modelled from the spec: the extended target classification that the
chapter states as its goal — map/set-like collections are plain aggregates
dispatched to the distinct collection handler set instead of being passed
through; the implementing code is not part of the sample. -/
inductive TargetTypeFull where
  | INVALID
  | COMMON
  | COLLECTION
deriving DecidableEq

/-- Modelled from the spec: `targetTypeMap` extended with the collection
raw types `Map`, `Set`, `WeakMap`, `WeakSet`. -/
def targetTypeMapFull (rawType : String) : TargetTypeFull :=
  match rawType with
  | "Object" => TargetTypeFull.COMMON
  | "Array" => TargetTypeFull.COMMON
  | "Map" => TargetTypeFull.COLLECTION
  | "Set" => TargetTypeFull.COLLECTION
  | "WeakMap" => TargetTypeFull.COLLECTION
  | "WeakSet" => TargetTypeFull.COLLECTION
  | _ => TargetTypeFull.INVALID

/-- Modelled from the spec: `getTargetType` over the extended
classification; non-extensible values remain `INVALID`. -/
def getTargetTypeFull (value : Value) : TargetTypeFull :=
  if !(isExtensible value) then TargetTypeFull.INVALID
  else targetTypeMapFull (toRawType value)

/-- Modelled from the spec: `reactive` with collection support — an
`INVALID` target passes through, a `COMMON` target gets the mutable
handler set, a `COLLECTION` target gets the distinct collection handler
set. -/
def reactiveFull (target : Value) : Value :=
  match getTargetTypeFull target with
  | TargetTypeFull.INVALID => target
  | TargetTypeFull.COMMON => Value.proxy HandlerKind.mutable target
  | TargetTypeFull.COLLECTION => Value.proxy HandlerKind.collection target

/-- Modelled from the spec: the collection handler insert method
(`Map.set` / `Set.add`): it unwraps the receiver to the raw collection,
writes the entry on that raw data (avoiding wrapping recursion loops), and
triggers the per-element dependency together with the sentinel iterate/size
key.  The result is the raw collection's new entry list and the list of
dependency keys triggered on the raw collection. -/
def collectionInsert (target : Value) (key : String) (value : Value) :
    List (String × Value) × List String :=
  let raw := toRaw target
  (setProp (entriesOf raw) key value, [key, ITERATE_KEY])

/-- Modelled from the spec: the collection handler delete method: it
unwraps the receiver to the raw collection, removes the entry there,
triggers the per-element dependency when the key was present, and always
triggers the sentinel iterate/size key. -/
def collectionDelete (target : Value) (key : String) :
    List (String × Value) × List String :=
  let raw := toRaw target
  let entries := entriesOf raw
  let had := (lookupField entries key).isSome
  (entries.filter (fun p => p.1 != key),
    (if had then [key] else []) ++ [ITERATE_KEY])

/-- Modelled from the spec: the collection handler clear method: it
unwraps the receiver to the raw collection, empties it, triggers every
removed element dependency, and always triggers the sentinel iterate/size
key. -/
def collectionClear (target : Value) :
    List (String × Value) × List String :=
  let raw := toRaw target
  ([], (entriesOf raw).map Prod.fst ++ [ITERATE_KEY])

/-- C4: map/set-like collections are wrapped (they are plain aggregates,
not pass-through values) with the distinct collection handler set, and
every mutating collection method operates on the unwrapped raw collection
(it is invariant under any wrapper chain on the receiver and writes the raw
entry list), triggers the per-element dependency when applicable, and
always triggers the sentinel iterate/size key. -/
theorem collection_wrap_and_mutators (target : Value) (key : String)
    (value : Value) :
    (isExtensible target = true →
      (toRawType target = "Map" ∨ toRawType target = "Set" ∨
        toRawType target = "WeakMap" ∨ toRawType target = "WeakSet") →
        reactiveFull target = Value.proxy HandlerKind.collection target) ∧
    (∀ hk : HandlerKind,
        collectionInsert (Value.proxy hk target) key value =
          collectionInsert target key value ∧
        collectionDelete (Value.proxy hk target) key =
          collectionDelete target key ∧
        collectionClear (Value.proxy hk target) = collectionClear target) ∧
    ((collectionInsert target key value).1 =
        setProp (entriesOf (toRaw target)) key value ∧
      key ∈ (collectionInsert target key value).2 ∧
      ITERATE_KEY ∈ (collectionInsert target key value).2) ∧
    ((lookupField (entriesOf (toRaw target)) key).isSome = true →
        key ∈ (collectionDelete target key).2) ∧
    (ITERATE_KEY ∈ (collectionDelete target key).2 ∧
      ITERATE_KEY ∈ (collectionClear target).2) := by
  refine ⟨fun hext htag => ?_, fun hk => ?_, ⟨rfl, ?_, ?_⟩,
    fun hhad => ?_, ⟨?_, ?_⟩⟩
  · unfold reactiveFull getTargetTypeFull
    rcases htag with h | h | h | h <;> rw [h] <;> simp [hext, targetTypeMapFull]
  · exact ⟨rfl, rfl, rfl⟩
  · simp [collectionInsert]
  · simp [collectionInsert]
  · simp [collectionDelete, hhad]
  · simp [collectionDelete]
  · simp [collectionClear]

/-- C4 witness: a concrete raw `Map` is wrapped with the collection
handler set; inserting `k2` through a wrapper over it writes the raw entry
list and triggers both the element key `k2` and the sentinel key, and
deleting the present key `k1` triggers `k1`. -/
theorem collection_wrap_and_mutators_witness :
    reactiveFull (Value.mkRaw 1 "Map" true [("k1", Value.mkRaw 2 "String" true [])]) =
      Value.proxy HandlerKind.collection
        (Value.mkRaw 1 "Map" true [("k1", Value.mkRaw 2 "String" true [])]) ∧
    ITERATE_KEY ∈
      (collectionInsert
        (Value.proxy HandlerKind.collection
          (Value.mkRaw 1 "Map" true [("k1", Value.mkRaw 2 "String" true [])]))
        "k2" (Value.mkRaw 3 "String" true [])).2 ∧
    "k1" ∈
      (collectionDelete
        (Value.mkRaw 1 "Map" true [("k1", Value.mkRaw 2 "String" true [])])
        "k1").2 :=
  ⟨(collection_wrap_and_mutators
      (Value.mkRaw 1 "Map" true [("k1", Value.mkRaw 2 "String" true [])])
      "k1" (Value.mkRaw 3 "String" true [])).1 rfl (Or.inl rfl),
   (collection_wrap_and_mutators
      (Value.proxy HandlerKind.collection
        (Value.mkRaw 1 "Map" true [("k1", Value.mkRaw 2 "String" true [])]))
      "k2" (Value.mkRaw 3 "String" true [])).2.2.1.2.2,
   (collection_wrap_and_mutators
      (Value.mkRaw 1 "Map" true [("k1", Value.mkRaw 2 "String" true [])])
      "k1" (Value.mkRaw 3 "String" true [])).2.2.2.1 rfl⟩

/-!
Part 5 — Dependency Store, Effect runs, and synchronous trigger ordering.

No dependency-store or effect code is part of the sample, so this part is
modelled from the spec: a Dependency Key abstracts the (wrapper identity,
property key) pair; the store keeps, per key, the ordered Subscriber Set
(unique membership, insertion order) and, per Effect, the current-run key
set (the bidirectional bookkeeping of the spec).
-/

/-- An Effect identity. -/
abbrev EffectId := Nat

/-- A Dependency Key: abstracts the (wrapped-object identity, property
key) pair. -/
abbrev DepKey := Nat

/-- Modelled from the spec: the Dependency Store — per Dependency Key the
Subscriber Set as an insertion-ordered duplicate-free list, and per Effect
the set of keys recorded during its current run. -/
structure DepStore where
  subs : DepKey → List EffectId
  deps : EffectId → List DepKey

/-- The store before any tracking: every Subscriber Set and every key set
is empty. -/
def emptyStore : DepStore where
  subs := fun _ => []
  deps := fun _ => []

/-- Modelled from the spec: the cleanup-before-run step of an Effect run —
remove the Effect from the Subscriber Sets of the keys it recorded on its
previous run, and clear its recorded key set. -/
def cleanup (e : EffectId) (s : DepStore) : DepStore where
  subs := fun k =>
    if k ∈ s.deps e then (s.subs k).filter (fun x => x != e) else s.subs k
  deps := fun e2 => if e2 = e then [] else s.deps e2

/-- Modelled from the spec: `track` for a read performed while Effect `e`
is the running Effect — add `e` to the Subscriber Set of the key and the
key to the running Effect's current-run key set, skipping both when the
Subscriber Set already contains it (set membership is unique). -/
def track (e : EffectId) (k : DepKey) (s : DepStore) : DepStore :=
  if e ∈ s.subs k then s
  else
    { subs := fun k2 => if k2 = k then s.subs k2 ++ [e] else s.subs k2,
      deps := fun e2 => if e2 = e then s.deps e2 ++ [k] else s.deps e2 }

/-- Modelled from the spec: one complete Effect run — cleanup-before-run,
then execute the wrapped function, during which every read goes through
tracking against this Effect, in read order (`reads` is the sequence of
Dependency Keys the function reads during this run). -/
def runEffect (e : EffectId) (reads : List DepKey) (s : DepStore) :
    DepStore :=
  reads.foldl (fun st k => track e k st) (cleanup e s)

/-- Modelled from the spec: `trigger` collects the Subscriber Set for the
key into one deduplicated batch; under the default synchronous policy each
member is invoked once, so the batch is the invocation list. -/
def triggerInvocations (s : DepStore) (k : DepKey) : List EffectId :=
  s.subs k

/-- The per-Effect counting invariant tying the two directions of the
bookkeeping together: an Effect occurs in a Subscriber Set exactly once
when it recorded that key, and never otherwise. -/
def GoodFor (e : EffectId) (st : DepStore) : Prop :=
  ∀ k, (st.subs k).count e = if k ∈ st.deps e then 1 else 0

/-- Cleanup establishes the counting invariant with an empty recorded key
set, given only the bidirectional-bookkeeping hypothesis on the incoming
store. -/
theorem cleanup_goodFor (e : EffectId) (s : DepStore)
    (hinv : ∀ k, e ∈ s.subs k → k ∈ s.deps e) :
    GoodFor e (cleanup e s) ∧ (cleanup e s).deps e = [] := by
  constructor
  · intro k
    simp only [cleanup]
    by_cases hk : k ∈ s.deps e
    · simp [hk, List.count_eq_zero]
    · have he : e ∉ s.subs k := fun hmem => hk (hinv k hmem)
      simp [hk, List.count_eq_zero.mpr he]
  · simp [cleanup]

/-- `track` preserves the counting invariant and extends the recorded key
set by exactly the tracked key. -/
theorem track_goodFor (e : EffectId) (k : DepKey) (st : DepStore)
    (hgood : GoodFor e st) :
    GoodFor e (track e k st) ∧
      (∀ k2, k2 ∈ (track e k st).deps e ↔ k2 = k ∨ k2 ∈ st.deps e) := by
  by_cases hmem : e ∈ st.subs k
  · have hk : k ∈ st.deps e := by
      by_contra hk
      have hcount := hgood k
      rw [if_neg hk] at hcount
      exact (List.count_eq_zero.mp hcount) hmem
    constructor
    · simpa [track, hmem] using hgood
    · intro k2
      simp only [track, if_pos hmem]
      constructor
      · exact Or.inr
      · rintro (rfl | h)
        · exact hk
        · exact h
  · have hk : k ∉ st.deps e := by
      intro hk
      have := hgood k
      rw [if_pos hk] at this
      exact hmem (List.count_pos_iff.mp (by omega))
    constructor
    · intro k2
      simp only [track, if_neg hmem]
      by_cases h2 : k2 = k
      · subst h2
        have hc : (st.subs k2).count e = 0 := by
          simpa [hk] using hgood k2
        simp [List.count_append, hc]
      · have := hgood k2
        simpa [h2, Ne.symm h2] using this
    · intro k2
      simp only [track, if_neg hmem]
      by_cases h2 : k2 = k <;> simp [h2, Or.comm]

/-- Folding `track` over the reads of a run preserves the counting
invariant and accumulates exactly the read keys into the recorded key
set. -/
theorem foldl_track_goodFor (e : EffectId) :
    ∀ (reads : List DepKey) (st : DepStore), GoodFor e st →
      GoodFor e (reads.foldl (fun st2 k => track e k st2) st) ∧
      (∀ k2, k2 ∈ (reads.foldl (fun st2 k => track e k st2) st).deps e ↔
          k2 ∈ reads ∨ k2 ∈ st.deps e) := by
  intro reads
  induction reads with
  | nil => exact fun st h => ⟨h, fun k2 => by simp⟩
  | cons a t ih =>
      intro st hgood
      obtain ⟨hg1, hm1⟩ := track_goodFor e a st hgood
      obtain ⟨hg2, hm2⟩ := ih (track e a st) hg1
      refine ⟨hg2, fun k2 => ?_⟩
      rw [List.foldl_cons] at *
      rw [hm2 k2, hm1 k2]
      simp [or_assoc]
      tauto

/-- C5: dependency precision.  After Effect `e` completes a run in which it
read exactly the keys `reads`, its recorded subscription set equals the
keys actually read during that run, and a subsequent trigger of a key it
did not read invokes it zero times while a trigger of a key it did read
invokes it exactly once.  The hypothesis is the bidirectional-bookkeeping
invariant of the store (`e` sits only in Subscriber Sets of keys it has
recorded), which `emptyStore` satisfies and runs preserve. -/
theorem effect_run_dependency_precision (e : EffectId)
    (reads : List DepKey) (s : DepStore)
    (hinv : ∀ k, e ∈ s.subs k → k ∈ s.deps e) :
    (∀ k, k ∈ (runEffect e reads s).deps e ↔ k ∈ reads) ∧
    (∀ k, (triggerInvocations (runEffect e reads s) k).count e =
        if k ∈ reads then 1 else 0) := by
  obtain ⟨hg0, hd0⟩ := cleanup_goodFor e s hinv
  obtain ⟨hg, hm⟩ := foldl_track_goodFor e reads (cleanup e s) hg0
  constructor
  · intro k
    rw [runEffect, hm k, hd0]
    simp
  · intro k
    have hcount := hg k
    have hmem := hm k
    rw [hd0] at hmem
    simp only [List.not_mem_nil, or_false] at hmem
    rw [runEffect, triggerInvocations, hcount]
    simp only [hmem]

/-- C5 witness: Effect 0 runs reading keys 1, 2 and 1 again over the empty
store; afterwards its key set contains key 1, triggering key 1 invokes it
exactly once (the duplicate read subscribes only once), and triggering the
unread key 3 does not invoke it. -/
theorem effect_run_dependency_precision_witness :
    (1 ∈ (runEffect 0 [1, 2, 1] emptyStore).deps 0) ∧
    (triggerInvocations (runEffect 0 [1, 2, 1] emptyStore) 1).count 0 = 1 ∧
    (triggerInvocations (runEffect 0 [1, 2, 1] emptyStore) 3).count 0 = 0 := by
  have h := effect_run_dependency_precision 0 [1, 2, 1] emptyStore
    (fun k hmem => absurd hmem (List.not_mem_nil 0))
  exact ⟨(h.1 1).mpr (by decide), (h.2 1).trans (by decide),
    (h.2 3).trans (by decide)⟩

/-- Modelled from the spec: whether an Effect carries a custom scheduling
function is a per-Effect attribute consulted at trigger time. -/
def HasScheduler := EffectId → Bool

/-- The observable events of one synchronous write: an immediate subscriber
invocation, a deferral to a custom scheduler, and the return of control to
the writer. -/
inductive TriggerEvent where
  | invoked (e : EffectId)
  | deferred (e : EffectId)
  | returned
deriving DecidableEq

/-- The scheduler's per-subscriber decision: invoke immediately unless the
Effect carries a custom scheduling function, which is called instead. -/
def triggerStep (sched : HasScheduler) (e : EffectId) : TriggerEvent :=
  if sched e then TriggerEvent.deferred e else TriggerEvent.invoked e

/-- Modelled from the spec: the event trace of one synchronous write that
triggers the subscribers of key `k` — each Effect of the Subscriber Set is
handled in iteration order, then control returns to the writer. -/
def writeTriggerTrace (sched : HasScheduler) (s : DepStore) (k : DepKey) :
    List TriggerEvent :=
  (s.subs k).map (triggerStep sched) ++ [TriggerEvent.returned]

/-- The effect invoked by an event, if any. -/
def invokedOf : TriggerEvent → Option EffectId
  | TriggerEvent.invoked e => some e
  | TriggerEvent.deferred _ => none
  | TriggerEvent.returned => none

/-- C6: synchronous trigger ordering.  In the event trace of one write,
the final event is the return of control to the writer, and the effects
invoked before it are exactly the subscriber Effects without a custom
scheduling function, in Subscriber-Set iteration order. -/
theorem write_trigger_sync_order (sched : HasScheduler) (s : DepStore)
    (k : DepKey) :
    (writeTriggerTrace sched s k).getLast? = some TriggerEvent.returned ∧
    ((writeTriggerTrace sched s k).dropLast.filterMap invokedOf =
      (s.subs k).filter (fun e => !sched e)) := by
  constructor
  · simp [writeTriggerTrace]
  · rw [writeTriggerTrace, List.dropLast_concat]
    induction s.subs k with
    | nil => rfl
    | cons a t ih =>
        cases hs : sched a <;>
          simp [triggerStep, hs, invokedOf, ih]
